import Mathlib

/-!
Verification of `py65/utils/console.py`: a shallow embedding of the terminal
mode controller (POSIX-termios and Windows-console variants) and the line
input reader, with theorems settling the specification's claims.

Modelling conventions:
* A Python string is a `List Char`; `ord c` is `Char.toNat c`.
* The POSIX termios attribute list `[iflag, oflag, cflag, lflag, ispeed,
  ospeed, cc]` is the structure `TermAttr`; `cc` is a `List Nat`.
* The module-global `oldattr` together with the live terminal configuration
  of the input handle forms `ConsoleState`; an input handle is modelled by
  whether `fileno`/`tcgetattr`/`tcsetattr` succeed on it (`isTTY`).
* A `stdin.read(1)` call in noncanonical mode is a `ReadEvent`: it returns
  one character, returns the empty string, raises KeyboardInterrupt, or
  raises some other exception.  A raised KeyboardInterrupt that propagates
  to the caller is `Except.error ()`.
-/

namespace Console

/-- Linux value of `termios.ICANON` (canonical line discipline flag bit). -/
def ICANON : Nat := 2

/-- Linux value of `termios.ECHO` (echo flag bit). -/
def ECHO : Nat := 8

/-- Linux value of `termios.VTIME` (index of the read-timeout byte in `cc`). -/
def VTIME : Nat := 5

/-- Linux value of `termios.VMIN` (index of the minimum-count byte in `cc`). -/
def VMIN : Nat := 6

/-- The termios attribute bundle returned by `termios.tcgetattr`:
`[iflag, oflag, cflag, lflag, ispeed, ospeed, cc]`. -/
structure TermAttr where
  iflag : Nat
  oflag : Nat
  cflag : Nat
  lflag : Nat
  ispeed : Nat
  ospeed : Nat
  cc : List Nat
  deriving DecidableEq, Repr

/-- An input handle: `isTTY` records whether the termios configuration
calls (`fileno` plus `tcgetattr`/`tcsetattr`) succeed on it.  A redirected
or non-terminal stream has `isTTY = false`. -/
structure Handle where
  isTTY : Bool
  deriving DecidableEq, Repr

/-- The process-wide mutable state touched by the POSIX variant: the
module-global `oldattr` slot and the live terminal configuration of the
input handle. -/
structure ConsoleState where
  oldattr : Option TermAttr
  termcfg : TermAttr
  deriving DecidableEq, Repr

/-- `save_mode(stdin)` (POSIX variant): `oldattr = termios.tcgetattr(fd)`
inside a `try`/`except: pass`.  On a non-terminal handle the query raises,
the exception is swallowed, and nothing changes. -/
def save_mode (h : Handle) (s : ConsoleState) : ConsoleState :=
  if h.isTTY then { s with oldattr := some s.termcfg } else s

/-- The attribute rewrite performed by `noncanonical_mode` on the current
attributes: `newattr[3] &= ~ICANON & ~ECHO` (clear the canonical and echo
bits; on nonnegative ints this is `lflag AND NOT (ICANON OR ECHO)`, i.e.
`Nat.ldiff`), then `newattr[6][VMIN] = 0` and `newattr[6][VTIME] = 1`. -/
def noncanonicalAttr (a : TermAttr) : TermAttr :=
  { a with
    lflag := Nat.ldiff a.lflag (ICANON ||| ECHO)
    cc := (a.cc.set VMIN 0).set VTIME 1 }

/-- `noncanonical_mode(stdin)` (POSIX variant): read the current attributes
with `tcgetattr`, rewrite them, and apply them with
`tcsetattr(fd, TCSANOW, newattr)` (immediate effect), all inside a
`try`/`except: pass` that swallows failures on non-terminal handles. -/
def noncanonical_mode (h : Handle) (s : ConsoleState) : ConsoleState :=
  if h.isTTY then { s with termcfg := noncanonicalAttr s.termcfg } else s

/-- `restore_mode(stdin)` (POSIX variant): if `oldattr != None`, apply it
with `tcsetattr(fd, TCSANOW, oldattr)`; failures are swallowed.  The
`oldattr` slot itself is never written here. -/
def restore_mode (h : Handle) (s : ConsoleState) : ConsoleState :=
  if h.isTTY then
    match s.oldattr with
    | some a => { s with termcfg := a }
    | none => s
  else s

/-- The outcome of one `stdin.read(1)` attempt in noncanonical mode. -/
inductive ReadEvent where
  /-- `read` returned the empty string (timeout with no byte). -/
  | empty : ReadEvent
  /-- `read` returned the one-character string `c`. -/
  | char (c : Char) : ReadEvent
  /-- `read` raised `KeyboardInterrupt`. -/
  | interrupt : ReadEvent
  /-- `read` raised some other exception. -/
  | err : ReadEvent
  deriving DecidableEq, Repr

/-- The `while char == ''` loop of `getch` (POSIX variant), reading the
event stream `input` from position `i` with `fuel` remaining iterations.
`none` means the fuel ran out while the loop was still spinning;
`some (.error ())` means a `KeyboardInterrupt` was re-raised to the caller
(the bare `raise` in the loop); `some (.ok c)` means the loop exited with
the one-character result `c`.  An event `.err` leaves `char` equal to `''`
(the `except: pass` arm), so the loop continues, exactly as `.empty` does. -/
def getchLoop (input : Nat → ReadEvent) : Nat → Nat → Option (Except Unit Char)
  | _, 0 => none
  | i, fuel + 1 =>
    match input i with
    | .char c => some (.ok c)
    | .interrupt => some (.error ())
    | .empty => getchLoop input (i + 1) fuel
    | .err => getchLoop input (i + 1) fuel

/-- `getch(stdin)` (POSIX variant): call `noncanonical_mode(stdin)`, then
loop single-byte reads until one returns a character.  Returns the loop
outcome paired with the state after the call. -/
def getch (h : Handle) (s : ConsoleState) (input : Nat → ReadEvent)
    (fuel : Nat) : Option (Except Unit Char) × ConsoleState :=
  (getchLoop input 0 fuel, noncanonical_mode h s)

/-- `getch_noblock(stdin)` (POSIX variant): call `noncanonical_mode`, make
one read attempt (`KeyboardInterrupt` is re-raised, other exceptions leave
`char = ''`), then normalize a raw `'\n'` result to `'\r'`.  `.ok none`
models the empty-string return. -/
def getch_noblock (h : Handle) (s : ConsoleState) (ev : ReadEvent) :
    Except Unit (Option Char) × ConsoleState :=
  let s' := noncanonical_mode h s
  match ev with
  | .interrupt => (.error (), s')
  | .err => (.ok none, s')
  | .empty => (.ok none, s')
  | .char c => (.ok (some (if c = '\n' then '\r' else c)), s')

/-- Latin-1 decoding of one byte (`bytes.decode('latin-1')` maps byte `b`
to the character with code point `b`). -/
def latin1Decode (b : Nat) : Char :=
  Char.ofNat b

/-- `getch(stdin)` (Windows variant): `msvcrt.getch()` reads one keystroke
byte `k`, which is decoded with latin-1. -/
def getch_windows (k : Nat) : Char :=
  latin1Decode k

/-- `getch_noblock(stdin)` (Windows variant): if `msvcrt.kbhit()` reports a
pending keystroke, delegate to `getch`; otherwise return the empty string
(`none`).  No newline normalization is performed on this path. -/
def getch_noblock_windows (pending : Option Nat) : Option Char :=
  match pending with
  | some k => some (getch_windows k)
  | none => none

/-- The erase-and-redraw string written after a successful backspace:
`"\r%s\r%s%s" % (' ' * (len(prompt + line) + 5), prompt, line)`, where
`line` is the already-shortened buffer. -/
def redraw (prompt line : List Char) : List Char :=
  '\r' :: List.replicate (prompt.length + line.length + 5) ' ' ++
    '\r' :: (prompt ++ line)

/-- The outcome of one iteration of the `line_input` loop body. -/
inductive StepResult where
  /-- The `break` on a newline or carriage-return character. -/
  | done : StepResult
  /-- Continue the loop with buffer `line`, having written `echoed` to
  stdout during this iteration. -/
  | cont (line : List Char) (echoed : List Char) : StepResult
  deriving DecidableEq, Repr

/-- The body of the `while True` loop of `line_input`, applied to one
character `c` returned by `getch`: break on `"\n"`/`"\r"`; on code
`0x7f`/`0x08` drop the last buffer character and redraw if the buffer is
non-empty, else do nothing; on code `0x1b` do nothing; otherwise append
`c` to the buffer and echo it (the `flush` has no modelled effect). -/
def lineStep (prompt line : List Char) (c : Char) : StepResult :=
  if c = '\n' ∨ c = '\r' then
    .done
  else if c.toNat = 0x7f ∨ c.toNat = 0x08 then
    if line.length > 0 then
      .cont line.dropLast (redraw prompt line.dropLast)
    else
      .cont line []
  else if c.toNat = 0x1b then
    .cont line []
  else
    .cont (line ++ [c]) [c]

/-- The `line_input` loop over the sequence `input` of characters that the
successive `getch` calls return, with current buffer `line` and output
written so far `out`.  Returns `some (line, out)` at the `break`; `none`
when `input` is exhausted (the real loop would then block in `getch`
forever waiting for more characters). -/
def lineLoop (prompt : List Char) :
    List Char → List Char → List Char → Option (List Char × List Char)
  | [], _, _ => none
  | c :: rest, line, out =>
    match lineStep prompt line c with
    | .done => some (line, out)
    | .cont line' echoed => lineLoop prompt rest line' (out ++ echoed)

/-- `line_input(prompt, stdin, stdout)`: write the prompt, start with an
empty buffer, and run the loop over the characters `input` delivered by
`getch`.  The result pairs the returned line with everything written to
stdout. -/
def line_input (prompt input : List Char) :
    Option (List Char × List Char) :=
  lineLoop prompt input [] prompt

/-- A character that takes the plain-append branch of the `line_input`
loop: not a terminator, not backspace/delete, not escape. -/
def printableChar (c : Char) : Bool :=
  !(c = '\n' || c = '\r' || c.toNat == 0x7f || c.toNat == 0x08 ||
    c.toNat == 0x1b)

/-- A sample termios attribute bundle used to instantiate theorems on
concrete inputs (`cc` has more than `VMIN` entries, as real termios
attribute lists do). -/
def sampleAttr : TermAttr :=
  ⟨0, 0, 0, 0xff, 0, 0, [1, 2, 3, 4, 5, 6, 7]⟩

/-- A sample console state with no saved attributes. -/
def sampleState : ConsoleState :=
  ⟨none, sampleAttr⟩

/-- Clearing the bits of `m` from `x` leaves a number sharing no set bit
with the left disjunct of `m = a ||| b`. -/
theorem ldiff_land_or_left (x a b : Nat) :
    Nat.ldiff x (a ||| b) &&& a = 0 := by
  apply Nat.eq_of_testBit_eq
  intro i
  simp only [Nat.testBit_land, Nat.testBit_ldiff, Nat.testBit_or,
    Nat.zero_testBit]
  cases x.testBit i <;> cases a.testBit i <;> cases b.testBit i <;> rfl

/-- Clearing the bits of `m` from `x` leaves a number sharing no set bit
with the right disjunct of `m = a ||| b`. -/
theorem ldiff_land_or_right (x a b : Nat) :
    Nat.ldiff x (a ||| b) &&& b = 0 := by
  apply Nat.eq_of_testBit_eq
  intro i
  simp only [Nat.testBit_land, Nat.testBit_ldiff, Nat.testBit_or,
    Nat.zero_testBit]
  cases x.testBit i <;> cases a.testBit i <;> cases b.testBit i <;> rfl

/-- A printable character takes the append-and-echo branch of the loop
body. -/
theorem lineStep_printable (prompt line : List Char) (c : Char)
    (hc : printableChar c = true) :
    lineStep prompt line c = .cont (line ++ [c]) [c] := by
  simp only [printableChar, Bool.not_eq_true', Bool.or_eq_false_iff,
    decide_eq_false_iff_not, beq_eq_false_iff_ne, ne_eq] at hc
  obtain ⟨⟨⟨⟨h1, h2⟩, h3⟩, h4⟩, h5⟩ := hc
  simp [lineStep, h1, h2, h3, h4, h5]

/-- Running the loop over a block of printable characters appends them to
the buffer and echoes them, one by one. -/
theorem lineLoop_printable_block (prompt : List Char) :
    ∀ (cs tail line out : List Char),
      (∀ c ∈ cs, printableChar c = true) →
      lineLoop prompt (cs ++ tail) line out =
        lineLoop prompt tail (line ++ cs) (out ++ cs) := by
  intro cs
  induction cs with
  | nil => intro tail line out _; simp
  | cons c cs ih =>
    intro tail line out hcs
    have hc : printableChar c = true := hcs c (List.mem_cons_self c cs)
    have hrest : ∀ d ∈ cs, printableChar d = true :=
      fun d hd => hcs d (List.mem_cons_of_mem c hd)
    simp only [List.cons_append, lineLoop, lineStep_printable prompt line c hc]
    show lineLoop prompt (cs ++ tail) (line ++ [c]) (out ++ [c]) =
      lineLoop prompt tail (line ++ c :: cs) (out ++ c :: cs)
    rw [ih tail (line ++ [c]) (out ++ [c]) hrest]
    simp

/-- An escape character (code `0x1b`) takes the silent-discard branch of
the loop body: the buffer is unchanged and nothing is echoed. -/
theorem lineStep_escape (prompt line : List Char) (c : Char)
    (hc : c.toNat = 0x1b) :
    lineStep prompt line c = .cont line [] := by
  have h1 : ¬(c = '\n' ∨ c = '\r') := by
    rintro (rfl | rfl) <;> simp at hc
  have h2 : ¬(c.toNat = 0x7f ∨ c.toNat = 0x08) := by omega
  simp [lineStep, h1, h2, hc]

/-- Dropping every escape character from the remaining input does not
change the outcome of the `line_input` loop. -/
theorem lineLoop_filter_escape (prompt : List Char) :
    ∀ (input line out : List Char),
      lineLoop prompt input line out =
        lineLoop prompt (input.filter fun c => c.toNat != 0x1b) line out := by
  intro input
  induction input with
  | nil => intro line out; rfl
  | cons c rest ih =>
    intro line out
    by_cases hc : c.toNat = 0x1b
    · rw [List.filter_cons_of_neg (by simpa using hc)]
      rw [show lineLoop prompt (c :: rest) line out =
          lineLoop prompt rest line (out ++ []) from by
        simp [lineLoop, lineStep_escape prompt line c hc]]
      rw [List.append_nil]
      exact ih line out
    · rw [List.filter_cons_of_pos (by simpa using hc)]
      show (match lineStep prompt line c with
        | .done => some (line, out)
        | .cont line' echoed => lineLoop prompt rest line' (out ++ echoed)) =
        (match lineStep prompt line c with
        | .done => some (line, out)
        | .cont line' echoed =>
            lineLoop prompt (rest.filter fun c => c.toNat != 0x1b) line'
              (out ++ echoed))
      cases lineStep prompt line c with
      | done => rfl
      | cont line' echoed => exact ih line' (out ++ echoed)

/-- The immediate outcome of one read event inside the `getch` loop:
`some r` when the loop exits with result `r` (a character, or a re-raised
`KeyboardInterrupt`), `none` when the loop keeps polling. -/
def readOutcome : ReadEvent → Option (Except Unit Char)
  | .char c => some (.ok c)
  | .interrupt => some (.error ())
  | .empty => none
  | .err => none

/-- The `getch` polling loop started at index `i` returns the outcome of
the first loop-exiting event, provided the fuel lasts until it. -/
theorem getchLoop_eq_of_first (input : Nat → ReadEvent)
    (r : Except Unit Char) :
    ∀ (k i fuel : Nat), readOutcome (input (i + k)) = some r →
      (∀ m, m < k → readOutcome (input (i + m)) = none) →
      k < fuel → getchLoop input i fuel = some r := by
  intro k
  induction k with
  | zero =>
    intro i fuel hk _ hfuel
    obtain ⟨f, rfl⟩ : ∃ f, fuel = f + 1 := ⟨fuel - 1, by omega⟩
    rw [Nat.add_zero] at hk
    cases hev : input i <;> rw [hev] at hk <;>
      simp only [readOutcome, Option.some_inj, reduceCtorEq] at hk <;>
      simp [getchLoop, hev, hk]
  | succ k ih =>
    intro i fuel hk hbefore hfuel
    obtain ⟨f, rfl⟩ : ∃ f, fuel = f + 1 := ⟨fuel - 1, by omega⟩
    have h0 := hbefore 0 (Nat.succ_pos k)
    rw [Nat.add_zero] at h0
    have hk' : readOutcome (input (i + 1 + k)) = some r := by
      rw [show i + 1 + k = i + (k + 1) from by omega]; exact hk
    have hbefore' : ∀ m, m < k → readOutcome (input (i + 1 + m)) = none := by
      intro m hm
      rw [show i + 1 + m = i + (m + 1) from by omega]
      exact hbefore (m + 1) (by omega)
    have hrec := ih (i + 1) f hk' hbefore' (by omega)
    cases hev : input i <;> rw [hev] at h0 <;>
      simp only [readOutcome, reduceCtorEq] at h0 <;>
      simpa [getchLoop, hev] using hrec

end Console

namespace Console

/-- C7: on a non-terminal input handle, where the termios queries and sets
fail, `save_mode`, `noncanonical_mode` and `restore_mode` all return
normally (they are total functions of the state) and leave the program
state — in particular the saved `oldattr` slot — entirely unchanged. -/
theorem C7_non_tty_silent_noop (h : Handle) (s : ConsoleState)
    (hn : h.isTTY = false) :
    save_mode h s = s ∧ noncanonical_mode h s = s ∧ restore_mode h s = s := by
  refine ⟨?_, ?_, ?_⟩ <;> simp [save_mode, noncanonical_mode, restore_mode, hn]

/-- Witness for C7 at a concrete non-terminal handle and state. -/
theorem C7_non_tty_silent_noop_witness :
    save_mode ⟨false⟩ sampleState = sampleState ∧
      noncanonical_mode ⟨false⟩ sampleState = sampleState ∧
      restore_mode ⟨false⟩ sampleState = sampleState :=
  C7_non_tty_silent_noop ⟨false⟩ sampleState rfl

/-- C8: `restore_mode` is idempotent — applying it twice yields exactly the
state of applying it once (the saved `oldattr` snapshot is not cleared by
restoring) — and with no saved state it is a pure no-op. -/
theorem C8_restore_mode_idempotent (h : Handle) (s : ConsoleState) :
    restore_mode h (restore_mode h s) = restore_mode h s ∧
      (s.oldattr = none → restore_mode h s = s) := by
  constructor
  · cases hh : h.isTTY <;> cases ho : s.oldattr <;>
      simp [restore_mode, hh, ho]
  · intro ho
    cases hh : h.isTTY <;> simp [restore_mode, hh, ho]

/-- Witness for C8: with no saved state, a concrete `restore_mode` call is
a no-op. -/
theorem C8_restore_mode_idempotent_witness :
    restore_mode ⟨true⟩ sampleState = sampleState :=
  (C8_restore_mode_idempotent ⟨true⟩ sampleState).2 rfl

/-- C9: on a terminal handle, `noncanonical_mode` recomputes the new
attributes from the current live configuration (`s.termcfg`) and applies
them immediately; the applied attributes have the `ICANON` and `ECHO` bits
cleared and set `cc[VMIN] = 0` and `cc[VTIME] = 1`. -/
theorem C9_noncanonical_mode_attrs (h : Handle) (s : ConsoleState)
    (ht : h.isTTY = true) (hcc : VMIN < s.termcfg.cc.length) :
    (noncanonical_mode h s).termcfg = noncanonicalAttr s.termcfg ∧
      (noncanonicalAttr s.termcfg).lflag &&& ICANON = 0 ∧
      (noncanonicalAttr s.termcfg).lflag &&& ECHO = 0 ∧
      (noncanonicalAttr s.termcfg).cc[VMIN]? = some 0 ∧
      (noncanonicalAttr s.termcfg).cc[VTIME]? = some 1 := by
  have hlen : VTIME < ((s.termcfg.cc).set VMIN 0).length := by
    rw [List.length_set]
    exact lt_trans (by norm_num [VTIME, VMIN]) hcc
  refine ⟨by simp [noncanonical_mode, ht], ldiff_land_or_left _ _ _,
    ldiff_land_or_right _ _ _, ?_, ?_⟩
  · show ((s.termcfg.cc.set VMIN 0).set VTIME 1)[VMIN]? = some 0
    rw [List.getElem?_set_ne (by norm_num [VTIME, VMIN])]
    rw [List.getElem?_set_self' ]
    simp [hcc]
  · show ((s.termcfg.cc.set VMIN 0).set VTIME 1)[VTIME]? = some 1
    rw [List.getElem?_set_self' ]
    rw [List.getElem?_eq_getElem hlen]
    rfl

/-- Witness for C9 at a concrete terminal handle and state. -/
theorem C9_noncanonical_mode_attrs_witness :
    (noncanonical_mode ⟨true⟩ sampleState).termcfg =
        noncanonicalAttr sampleState.termcfg ∧
      (noncanonicalAttr sampleState.termcfg).lflag &&& ICANON = 0 ∧
      (noncanonicalAttr sampleState.termcfg).lflag &&& ECHO = 0 ∧
      (noncanonicalAttr sampleState.termcfg).cc[VMIN]? = some 0 ∧
      (noncanonicalAttr sampleState.termcfg).cc[VTIME]? = some 1 :=
  C9_noncanonical_mode_attrs ⟨true⟩ sampleState rfl (by decide)

/-- C10: only `save_mode` ever writes the module-global `oldattr` slot:
`noncanonical_mode`, `restore_mode`, `getch` and `getch_noblock` leave it
unchanged in every execution. -/
theorem C10_oldattr_frame (h : Handle) (s : ConsoleState)
    (input : Nat → ReadEvent) (fuel : Nat) (ev : ReadEvent) :
    (noncanonical_mode h s).oldattr = s.oldattr ∧
      (restore_mode h s).oldattr = s.oldattr ∧
      ((getch h s input fuel).snd).oldattr = s.oldattr ∧
      ((getch_noblock h s ev).snd).oldattr = s.oldattr := by
  have hnc : (noncanonical_mode h s).oldattr = s.oldattr := by
    cases hh : h.isTTY <;> simp [noncanonical_mode, hh]
  refine ⟨hnc, ?_, hnc, ?_⟩
  · cases hh : h.isTTY <;> cases ho : s.oldattr <;>
      simp [restore_mode, hh, ho]
  · cases ev <;> simpa [getch_noblock] using hnc

/-- C2: on a sequence of printable characters followed by a newline or
carriage-return terminator (and any further unread input), `line_input`
returns exactly the printable sequence: the terminator is excluded and no
terminator character occurs anywhere in the result. -/
theorem C2_line_input_printable (prompt cs rest : List Char) (t : Char)
    (hcs : ∀ c ∈ cs, printableChar c = true) (ht : t = '\n' ∨ t = '\r') :
    (line_input prompt (cs ++ t :: rest)).map Prod.fst = some cs ∧
      '\n' ∉ cs ∧ '\r' ∉ cs := by
  refine ⟨?_, fun hmem => absurd (hcs _ hmem) (by decide),
    fun hmem => absurd (hcs _ hmem) (by decide)⟩
  unfold line_input
  rw [lineLoop_printable_block prompt cs (t :: rest) [] prompt hcs]
  have hstep : lineStep prompt cs t = .done := by
    rcases ht with rfl | rfl <;> simp [lineStep]
  simp [lineLoop, hstep]

/-- Witness for C2 on the concrete input `"ab\n"` with an empty prompt. -/
theorem C2_line_input_printable_witness :
    (line_input [] (['a', 'b'] ++ '\n' :: [])).map Prod.fst =
        some ['a', 'b'] ∧
      '\n' ∉ ['a', 'b'] ∧ '\r' ∉ ['a', 'b'] :=
  C2_line_input_printable [] ['a', 'b'] [] '\n' (by decide) (Or.inl rfl)

/-- C3: a backspace/delete character (code `0x7f` or `0x08`) on a
non-empty buffer removes exactly the last buffer character and writes the
carriage-return-anchored erase-and-redraw of the prompt plus shortened
buffer; on an empty buffer it leaves the buffer empty and writes nothing. -/
theorem C3_backspace_step (prompt line : List Char) (c : Char)
    (hc : c.toNat = 0x7f ∨ c.toNat = 0x08) :
    (line ≠ [] →
      lineStep prompt line c =
        .cont line.dropLast (redraw prompt line.dropLast)) ∧
      (line = [] → lineStep prompt line c = .cont [] []) := by
  have hnl : ¬(c = '\n' ∨ c = '\r') := by
    rintro (rfl | rfl) <;> simp at hc
  constructor
  · intro hne
    have hlen : line.length > 0 := List.length_pos.mpr hne
    simp [lineStep, hnl, hc, hlen]
  · rintro rfl
    rcases hc with hc | hc <;> simp [lineStep, hnl, hc]

/-- Witness for C3 at a concrete prompt, buffers `['a']` and `[]`, and the
DEL character. -/
theorem C3_backspace_step_witness :
    (lineStep ['>'] ['a'] (Char.ofNat 0x7f) =
        .cont [] (redraw ['>'] [])) ∧
      lineStep ['>'] [] (Char.ofNat 0x7f) = .cont [] [] :=
  ⟨(C3_backspace_step ['>'] ['a'] (Char.ofNat 0x7f)
      (Or.inl (by decide))).1 (by decide),
    (C3_backspace_step ['>'] [] (Char.ofNat 0x7f)
      (Or.inl (by decide))).2 rfl⟩

/-- C4: the line (and the full echoed output) produced by `line_input` on
any input sequence equals that produced on the sequence with every escape
byte (code `0x1b`) removed, and an escape character leaves the buffer
unchanged and echoes nothing. -/
theorem C4_escape_absorbed (prompt input : List Char) :
    line_input prompt input =
        line_input prompt (input.filter fun c => c.toNat != 0x1b) ∧
      ∀ line, lineStep prompt line (Char.ofNat 0x1b) = .cont line [] := by
  constructor
  · exact lineLoop_filter_escape prompt input [] prompt
  · intro line
    exact lineStep_escape prompt line (Char.ofNat 0x1b) (by decide)

/-- C5: if the input handle eventually yields a byte — the `n`-th read
attempt returns the character `c` and every earlier attempt returns
nothing or fails transiently — then `getch` terminates (any fuel beyond
`n` suffices) and returns exactly that one character (`Except.ok c`, a
single `Char`), never an empty result. -/
theorem C5_getch_terminates (h : Handle) (s : ConsoleState)
    (input : Nat → ReadEvent) (n : Nat) (c : Char)
    (hn : input n = .char c)
    (hbefore : ∀ m, m < n → input m = .empty ∨ input m = .err)
    (fuel : Nat) (hfuel : n < fuel) :
    (getch h s input fuel).fst = some (.ok c) := by
  show getchLoop input 0 fuel = some (.ok c)
  apply getchLoop_eq_of_first input (.ok c) n 0 fuel
  · rw [Nat.zero_add, hn]; rfl
  · intro m hm
    rcases hbefore m hm with he | he <;> rw [Nat.zero_add, he] <;> rfl
  · exact hfuel

/-- Witness for C5: the stream yields `'a'` on its third read attempt. -/
theorem C5_getch_terminates_witness :
    (getch ⟨true⟩ sampleState
        (fun m => if m = 2 then ReadEvent.char 'a' else .empty) 3).fst =
      some (.ok 'a') :=
  C5_getch_terminates ⟨true⟩ sampleState
    (fun m => if m = 2 then ReadEvent.char 'a' else .empty) 2 'a'
    (by decide) (by decide) 3 (by decide)

/-- C6: a `KeyboardInterrupt` raised during the `getch` polling loop (the
first loop-exiting event) or during the single read of `getch_noblock`
propagates to the caller (`Except.error`), instead of being caught,
swallowed or retried by this layer. -/
theorem C6_interrupt_propagates (h : Handle) (s : ConsoleState)
    (input : Nat → ReadEvent) (n : Nat)
    (hn : input n = .interrupt)
    (hbefore : ∀ m, m < n → input m = .empty ∨ input m = .err)
    (fuel : Nat) (hfuel : n < fuel) :
    (getch h s input fuel).fst = some (.error ()) ∧
      (getch_noblock h s .interrupt).fst = .error () := by
  constructor
  · show getchLoop input 0 fuel = some (.error ())
    apply getchLoop_eq_of_first input (.error ()) n 0 fuel
    · rw [Nat.zero_add, hn]; rfl
    · intro m hm
      rcases hbefore m hm with he | he <;> rw [Nat.zero_add, he] <;> rfl
    · exact hfuel
  · rfl

/-- Witness for C6: an interrupt arrives on the second read attempt. -/
theorem C6_interrupt_propagates_witness :
    (getch ⟨true⟩ sampleState
        (fun m => if m = 1 then ReadEvent.interrupt else .empty) 2).fst =
        some (.error ()) ∧
      (getch_noblock ⟨true⟩ sampleState .interrupt).fst = .error () :=
  C6_interrupt_propagates ⟨true⟩ sampleState
    (fun m => if m = 1 then ReadEvent.interrupt else .empty) 1
    (by decide) (by decide) 2 (by decide)

/-- C1 counterexample: the claim quantifies over every platform variant,
but the Windows variant of `getch_noblock` returns a pending raw newline
keystroke (byte `10`) unchanged as `'\n'`, not as `'\r'`. -/
theorem C1_counterexample :
    getch_noblock_windows (some 10) = some '\n' ∧
      getch_noblock_windows (some 10) ≠ some '\r' := by
  decide

/-- C1 (amended): on the POSIX variant, for every input handle and state,
when `getch_noblock` reads a raw newline character it returns a
carriage-return character, not a newline. -/
theorem C1_posix_newline_normalized (h : Handle) (s : ConsoleState) :
    (getch_noblock h s (.char '\n')).fst = .ok (some '\r') := by
  rfl

end Console
